import Mathlib

/-!
Verification of the `localize` package (localize.go): a shallow embedding of
the identifier validation (`SetGlobalName`, `NewMap`), the container
operations (`Add`, `Delete`, `GetData`), and the recursive reflection-based
serializer (`ReflectTarget`, `JS`).

Modelling conventions:
* A Go value, as seen through `reflect.Value`, is a `Value` tree.  The
  static kind of a node is its constructor: `vInterface` is a value of
  static type `interface\x7b\x7d` (Go's `Data` map stores such values), whose
  dynamic payload may be absent (`OptValue.nil` models a nil interface).
* Go maps are modelled as association lists; Go map iteration order is
  unspecified, so the list order stands for one concrete iteration order.
* `ReflectTarget` returns `Option String`: `some s` means the traversal
  writes exactly `s` to the buffer; `none` models a Go runtime panic.  The
  only panic in the source is `f.Elem().Type()` evaluated on the zero
  `reflect.Value` that `Elem()` yields for a nil interface (localize.go
  lines 191-193 and 213).
* Go's `%v` formatting of `float64` is abstracted: a `vFloat` node carries
  the decimal text that `fmt` would print for it.
-/

namespace Localize

mutual

/-- A Go value as seen by the reflection traversal.  Constructors are the
reflect kinds handled by `ReflectTarget` (localize.go lines 189-244);
`vOther` stands for any other kind, for which the switch has no case. -/
inductive Value where
  | vInterface : OptValue → Value
  | vStruct : Fields → Value
  | vMap : Fields → Value
  | vSlice : Elems → Value
  | vInt : Int → Value
  | vString : String → Value
  | vBool : Bool → Value
  | vFloat : String → Value
  | vOther : Value

/-- The dynamic payload of an interface value; `nil` models a nil interface. -/
inductive OptValue where
  | nil : OptValue
  | val : Value → OptValue

/-- Entries of a map node or fields of a struct node, in iteration order. -/
inductive Fields where
  | nil : Fields
  | cons : String → Value → Fields → Fields

/-- Elements of a slice node, in order. -/
inductive Elems where
  | nil : Elems
  | cons : Value → Elems → Elems

end

deriving instance DecidableEq for Value, OptValue, Fields, Elems

/-- Kind test used by the wrapper choice in the map case:
`"map" == f.Elem().Type().Kind().String()` (localize.go line 213). -/
def kindIsMap : Value → Bool
  | .vMap _ => true
  | _ => false

mutual

/-- Embedding of `ReflectTarget` (localize.go lines 187-245).  `some s`:
the traversal writes exactly `s`; `none`: the traversal panics (it calls
`Type()` on the zero `reflect.Value` produced by `Elem()` of a nil
interface). -/
def ReflectTarget : Value → Option String
  | .vInterface .nil => none
  | .vInterface (.val v) => ReflectTarget v
  | .vStruct fs => reflectFields fs
  | .vMap fs => reflectEntries fs
  | .vSlice es =>
    match reflectElems es with
    | none => none
    | some body => some ("[" ++ body ++ "],\n")
  | .vInt n => some (toString n ++ ",")
  | .vString s => some ("\"" ++ s ++ "\",")
  | .vBool b => some ((if b then "true" else "false") ++ ",")
  | .vFloat r => some (r ++ ",")
  | .vOther => some ""

/-- The struct branch of `ReflectTarget` (localize.go lines 194-202):
every field is emitted as `"<name>": \x7b\n <rendered field> \x7d,\n`. -/
def reflectFields : Fields → Option String
  | .nil => some ""
  | .cons name f rest =>
    match ReflectTarget f with
    | none => none
    | some s =>
      match reflectFields rest with
      | none => none
      | some r => some ("\"" ++ name ++ "\": \x7b\n" ++ s ++ "\x7d,\n" ++ r)

/-- The map branch of `ReflectTarget` (localize.go lines 203-226).  A map
or interface valued entry gets a wrapper pair: braces, or brackets when
the entry is an interface whose dynamic value is not a map.  The wrapper
test on a nil interface entry panics (`f.Elem().Type()`). -/
def reflectEntries : Fields → Option String
  | .nil => some ""
  | .cons k (.vMap fs) rest =>
    match reflectEntries fs with
    | none => none
    | some s =>
      match reflectEntries rest with
      | none => none
      | some r => some ("\"" ++ k ++ "\": \x7b\n" ++ s ++ "\n\x7d,\n" ++ r)
  | .cons _ (.vInterface .nil) _ => none
  | .cons k (.vInterface (.val w)) rest =>
    match ReflectTarget w with
    | none => none
    | some s =>
      match reflectEntries rest with
      | none => none
      | some r =>
        if kindIsMap w then
          some ("\"" ++ k ++ "\": \x7b\n" ++ s ++ "\n\x7d,\n" ++ r)
        else
          some ("\"" ++ k ++ "\": [\n" ++ s ++ "\n],\n" ++ r)
  | .cons k f rest =>
    match ReflectTarget f with
    | none => none
    | some s =>
      match reflectEntries rest with
      | none => none
      | some r => some ("\"" ++ k ++ "\":" ++ s ++ "\n" ++ r)

/-- The slice branch body of `ReflectTarget` (localize.go lines 230-234):
elements are rendered in order with no separator of their own. -/
def reflectElems : Elems → Option String
  | .nil => some ""
  | .cons f rest =>
    match ReflectTarget f with
    | none => none
    | some s =>
      match reflectElems rest with
      | none => none
      | some r => some (s ++ r)

end

/-- Character class `[a-zA-z_\$]` of `JSVariableRegex` (localize.go line 25),
kept exactly as the source writes it: the second range runs from `A` to
lower-case `z`, so it also covers the ASCII symbols between `Z` and `a`. -/
def jsVariableFirstChar (c : Char) : Bool :=
  ('a' ≤ c && c ≤ 'z') || ('A' ≤ c && c ≤ 'z') || c == '_' || c == '$'

/-- Character class `[a-zA-z_\$0-9]` of `JSVariableRegex` (localize.go line 25). -/
def jsVariableRestChar (c : Char) : Bool :=
  jsVariableFirstChar c || ('0' ≤ c && c ≤ '9')

/-- Whole-string match of `JSVariableRegex`, the anchored pattern
`^[a-zA-z_\$][a-zA-z_\$0-9]*$` (localize.go line 25). -/
def JSVariableRegex (s : String) : Bool :=
  match s.toList with
  | [] => false
  | c :: cs => jsVariableFirstChar c && cs.all jsVariableRestChar

/-- The alternatives of `JSReservedRegex` (localize.go line 31), in source
order. -/
def JSReservedWords : List String :=
  ["break", "case", "catch", "class", "const", "continue", "debugger",
   "default", "delete", "do", "else", "export", "extends", "finally",
   "for", "function", "if", "import", "in", "instanceof", "new",
   "return", "super", "switch", "this", "throw", "try", "typeof",
   "var", "void", "while", "with", "yield", "enum", "await",
   "implements", "interface", "package", "private", "protected",
   "public", "static"]

/-- Whole-string match of the anchored pattern `^(break|...|static)$`
(localize.go line 31). -/
def JSReservedRegex (s : String) : Bool :=
  JSReservedWords.contains s

/-- The error values of localize.go lines 33-42, plus the two ad-hoc
errors built with `errors.New` / `fmt.Errorf` inside `Add` and `Delete`. -/
inductive GoError where
  | reservedKeyword
  | invalidVariableName
  | invalidKey
  | invalidData
  | nilMap
  | addFailed
  | deleteFailed (key : String)
deriving DecidableEq

/-- The `Map` struct (localize.go lines 65-68).  `data` is Go's
`map[string]interface\x7b\x7d` field: `none` models a nil map, and each entry
holds an interface value whose payload may itself be nil. -/
structure Map where
  data : Option (List (String × OptValue))
  globalName : String
deriving DecidableEq

/-- Embedding of `SetGlobalName` (localize.go lines 134-147).  The
`bytes.Buffer` round trip is the identity on the string's bytes, so the
regexes are matched directly against `name`. -/
def Map.SetGlobalName (l : Map) (name : String) : Except GoError Map :=
  if !(JSVariableRegex name) then .error .invalidVariableName
  else if JSReservedRegex name then .error .reservedKeyword
  else .ok { l with globalName := name }

/-- Embedding of `GetGlobalName` (localize.go lines 151-153). -/
def Map.GetGlobalName (l : Map) : String :=
  l.globalName

/-- Embedding of `NewMap` (localize.go lines 71-82): a nil `data` argument
is replaced by an empty map, and the name is validated through
`SetGlobalName`; the zero value of the `globalName` field is `""`. -/
def NewMap (name : String) (data : Option (List (String × OptValue))) :
    Except GoError Map :=
  let d := data.getD []
  let l : Map := { data := some d, globalName := "" }
  match l.SetGlobalName name with
  | .error e => .error e
  | .ok m => .ok m

/-- Go map assignment `l.data[key] = v` on the association-list model:
replace the existing entry for `key`, or append a new one. -/
def setEntry : List (String × OptValue) → String → OptValue →
    List (String × OptValue)
  | [], k, v => [(k, v)]
  | (k1, v1) :: rest, k, v =>
    if k1 == k then (k, v) :: rest else (k1, v1) :: setEntry rest k v

/-- Go map lookup `val, ok := l.data[key]` on the association-list model. -/
def getEntry : List (String × OptValue) → String → Option OptValue
  | [], _ => none
  | (k1, v1) :: rest, k => if k1 == k then some v1 else getEntry rest k

/-- Go's built-in `delete(l.data, key)` on the association-list model. -/
def delEntry (d : List (String × OptValue)) (k : String) :
    List (String × OptValue) :=
  d.filter (fun e => !(e.1 == k))

/-- Embedding of `Add` (localize.go lines 86-103); the second component is
the map after the call (the Go method mutates its receiver). -/
def Map.Add (l : Map) (key : String) (data : OptValue) :
    Option GoError × Map :=
  match l.data with
  | none => (some .nilMap, l)
  | some d =>
    if key == "" then (some .invalidKey, l)
    else
      match data with
      | .nil => (some .invalidData, l)
      | .val v =>
        let d1 := setEntry d key (.val v)
        let l1 : Map := { l with data := some d1 }
        match getEntry d1 key with
        | some (.val _) => (none, l1)
        | _ => (some .addFailed, l1)

/-- Embedding of `Delete` (localize.go lines 107-124); the second component
is the map after the call. -/
def Map.Delete (l : Map) (key : String) : Option GoError × Map :=
  match l.data with
  | none => (some .nilMap, l)
  | some d =>
    if key == "" then (some .invalidKey, l)
    else
      let d1 := delEntry d key
      let l1 : Map := { l with data := some d1 }
      match getEntry d1 key with
      | some _ => (some (.deleteFailed key), l1)
      | none => (none, l1)

/-- Embedding of `GetData` (localize.go lines 127-129). -/
def Map.GetData (l : Map) : Option (List (String × OptValue)) :=
  l.data

/-- The `reflect.Value` view of a `Data` map: a map node whose entries all
have static type `interface\x7b\x7d`. -/
def dataValue (d : List (String × OptValue)) : Value :=
  .vMap (d.foldr (fun e fs => .cons e.1 (.vInterface e.2) fs) .nil)

/-- Embedding of `JS` (localize.go lines 161-172): the buffer starts with
the global-variable assignment head, `ReflectTarget` fills it, and `\n};`
closes it.  A nil `data` map still has kind `map` with no keys, so it
renders like an empty map.  `none` models a panic escaping `JS`. -/
def Map.JS (l : Map) : Option String :=
  match ReflectTarget (dataValue (l.data.getD [])) with
  | none => none
  | some body => some (l.globalName ++ " = \x7b\n" ++ body ++ "\n\x7d;")

/-- First-character class of the identifier grammar as the spec states it
(§4.1): letter, underscore, or dollar-sign.  Stated over ASCII letters;
kept separate from `jsVariableFirstChar` so the source regex can be
compared against the spec's grammar. -/
def specIdentFirstChar (c : Char) : Bool :=
  ('a' ≤ c && c ≤ 'z') || ('A' ≤ c && c ≤ 'Z') || c == '_' || c == '$'

/-- Subsequent-character class of the spec's identifier grammar (§4.1):
letter, digit, underscore, or dollar-sign. -/
def specIdentRestChar (c : Char) : Bool :=
  specIdentFirstChar c || ('0' ≤ c && c ≤ '9')

/-- The spec's identifier grammar (§4.1) as a whole-string predicate:
at least one character, first character in the first-character class,
the rest in the subsequent-character class. -/
def specIsIdentifier (s : String) : Bool :=
  match s.toList with
  | [] => false
  | c :: cs => specIdentFirstChar c && cs.all specIdentRestChar

/-- The text the spec's §4.2 Mapping rule prescribes for one (key, value)
entry whose value renders to `s`, followed by the rendering `r` of the
remaining entries: braces around a Mapping or a Reference unwrapping to a
Mapping, brackets around a Reference unwrapping to anything else, and no
wrapper otherwise. -/
def specMappingEntry (k : String) (v : Value) (s r : String) : String :=
  match v with
  | .vMap _ => "\"" ++ k ++ "\": \x7b\n" ++ s ++ "\n\x7d,\n" ++ r
  | .vInterface (.val w) =>
    if kindIsMap w then "\"" ++ k ++ "\": \x7b\n" ++ s ++ "\n\x7d,\n" ++ r
    else "\"" ++ k ++ "\": [\n" ++ s ++ "\n],\n" ++ r
  | _ => "\"" ++ k ++ "\":" ++ s ++ "\n" ++ r

mutual

/-- Absence of nil interface payloads anywhere in a value: exactly the
inputs on which the traversal cannot hit the nil-interface panic. -/
def noNilRef : Value → Bool
  | .vInterface ov => noNilRefOpt ov
  | .vStruct fs => noNilRefFields fs
  | .vMap fs => noNilRefFields fs
  | .vSlice es => noNilRefElems es
  | .vInt _ => true
  | .vString _ => true
  | .vBool _ => true
  | .vFloat _ => true
  | .vOther => true

/-- Nil-freeness of an interface payload: a nil payload fails. -/
def noNilRefOpt : OptValue → Bool
  | .nil => false
  | .val v => noNilRef v

/-- Nil-freeness of all values in a field list. -/
def noNilRefFields : Fields → Bool
  | .nil => true
  | .cons _ v rest => noNilRef v && noNilRefFields rest

/-- Nil-freeness of all values in an element list. -/
def noNilRefElems : Elems → Bool
  | .nil => true
  | .cons v rest => noNilRef v && noNilRefElems rest

end

theorem getEntry_setEntry (d : List (String × OptValue)) (k : String)
    (v : OptValue) : getEntry (setEntry d k v) k = some v := by
  induction d with
  | nil => simp [setEntry, getEntry]
  | cons e rest ih =>
    obtain ⟨k1, v1⟩ := e
    by_cases h : k1 == k
    · simp [setEntry, h, getEntry]
    · simp [setEntry, h, getEntry, ih]

theorem getEntry_delEntry (d : List (String × OptValue)) (k : String) :
    getEntry (delEntry d k) k = none := by
  induction d with
  | nil => simp [delEntry, getEntry]
  | cons e rest ih =>
    obtain ⟨k1, v1⟩ := e
    by_cases h : k1 == k
    · simpa [delEntry, h] using ih
    · simpa [delEntry, h, getEntry] using ih

mutual

theorem reflect_isSome : ∀ (v : Value), noNilRef v = true →
    (ReflectTarget v).isSome = true
  | .vInterface .nil, h => by simp [noNilRef, noNilRefOpt] at h
  | .vInterface (.val w), h => by
    have hw : noNilRef w = true := by simpa [noNilRef, noNilRefOpt] using h
    simpa [ReflectTarget] using reflect_isSome w hw
  | .vStruct fs, h => by
    have hf : noNilRefFields fs = true := by simpa [noNilRef] using h
    simpa [ReflectTarget] using fields_isSome fs hf
  | .vMap fs, h => by
    have hf : noNilRefFields fs = true := by simpa [noNilRef] using h
    simpa [ReflectTarget] using entries_isSome fs hf
  | .vSlice es, h => by
    have he : noNilRefElems es = true := by simpa [noNilRef] using h
    obtain ⟨body, hb⟩ := Option.isSome_iff_exists.mp (elems_isSome es he)
    simp [ReflectTarget, hb]
  | .vInt _, _ => by simp [ReflectTarget]
  | .vString _, _ => by simp [ReflectTarget]
  | .vBool _, _ => by simp [ReflectTarget]
  | .vFloat _, _ => by simp [ReflectTarget]
  | .vOther, _ => by simp [ReflectTarget]

theorem fields_isSome : ∀ (fs : Fields), noNilRefFields fs = true →
    (reflectFields fs).isSome = true
  | .nil, _ => by simp [reflectFields]
  | .cons name f rest, h => by
    simp only [noNilRefFields, Bool.and_eq_true] at h
    obtain ⟨s, hs⟩ := Option.isSome_iff_exists.mp (reflect_isSome f h.1)
    obtain ⟨r, hr⟩ := Option.isSome_iff_exists.mp (fields_isSome rest h.2)
    simp [reflectFields, hs, hr]

theorem entries_isSome : ∀ (fs : Fields), noNilRefFields fs = true →
    (reflectEntries fs).isSome = true
  | .nil, _ => by simp [reflectEntries]
  | .cons k (.vMap ms) rest, h => by
    simp only [noNilRefFields, noNilRef, Bool.and_eq_true] at h
    obtain ⟨s, hs⟩ := Option.isSome_iff_exists.mp (entries_isSome ms h.1)
    obtain ⟨r, hr⟩ := Option.isSome_iff_exists.mp (entries_isSome rest h.2)
    simp [reflectEntries, hs, hr]
  | .cons k (.vInterface .nil) rest, h => by
    simp [noNilRefFields, noNilRef, noNilRefOpt] at h
  | .cons k (.vInterface (.val w)) rest, h => by
    simp only [noNilRefFields, noNilRef, noNilRefOpt, Bool.and_eq_true] at h
    obtain ⟨s, hs⟩ := Option.isSome_iff_exists.mp (reflect_isSome w h.1)
    obtain ⟨r, hr⟩ := Option.isSome_iff_exists.mp (entries_isSome rest h.2)
    by_cases hk : kindIsMap w <;> simp [reflectEntries, hs, hr, hk]
  | .cons k (.vStruct fs) rest, h => by
    simp only [noNilRefFields, Bool.and_eq_true] at h
    obtain ⟨s, hs⟩ := Option.isSome_iff_exists.mp (reflect_isSome (.vStruct fs) h.1)
    obtain ⟨r, hr⟩ := Option.isSome_iff_exists.mp (entries_isSome rest h.2)
    simp [reflectEntries, hs, hr]
  | .cons k (.vSlice es) rest, h => by
    simp only [noNilRefFields, Bool.and_eq_true] at h
    obtain ⟨s, hs⟩ := Option.isSome_iff_exists.mp (reflect_isSome (.vSlice es) h.1)
    obtain ⟨r, hr⟩ := Option.isSome_iff_exists.mp (entries_isSome rest h.2)
    simp [reflectEntries, hs, hr]
  | .cons k (.vInt n) rest, h => by
    simp only [noNilRefFields, Bool.and_eq_true] at h
    obtain ⟨r, hr⟩ := Option.isSome_iff_exists.mp (entries_isSome rest h.2)
    simp [reflectEntries, ReflectTarget, hr]
  | .cons k (.vString s) rest, h => by
    simp only [noNilRefFields, Bool.and_eq_true] at h
    obtain ⟨r, hr⟩ := Option.isSome_iff_exists.mp (entries_isSome rest h.2)
    simp [reflectEntries, ReflectTarget, hr]
  | .cons k (.vBool b) rest, h => by
    simp only [noNilRefFields, Bool.and_eq_true] at h
    obtain ⟨r, hr⟩ := Option.isSome_iff_exists.mp (entries_isSome rest h.2)
    simp [reflectEntries, ReflectTarget, hr]
  | .cons k (.vFloat x) rest, h => by
    simp only [noNilRefFields, Bool.and_eq_true] at h
    obtain ⟨r, hr⟩ := Option.isSome_iff_exists.mp (entries_isSome rest h.2)
    simp [reflectEntries, ReflectTarget, hr]
  | .cons k .vOther rest, h => by
    simp only [noNilRefFields, Bool.and_eq_true] at h
    obtain ⟨r, hr⟩ := Option.isSome_iff_exists.mp (entries_isSome rest h.2)
    simp [reflectEntries, ReflectTarget, hr]

theorem elems_isSome : ∀ (es : Elems), noNilRefElems es = true →
    (reflectElems es).isSome = true
  | .nil, _ => by simp [reflectElems]
  | .cons f rest, h => by
    simp only [noNilRefElems, Bool.and_eq_true] at h
    obtain ⟨s, hs⟩ := Option.isSome_iff_exists.mp (reflect_isSome f h.1)
    obtain ⟨r, hr⟩ := Option.isSome_iff_exists.mp (elems_isSome rest h.2)
    simp [reflectElems, hs, hr]

end

theorem noNilRef_dataValue (d : List (String × OptValue))
    (h : ∀ e ∈ d, noNilRefOpt e.2 = true) : noNilRef (dataValue d) = true := by
  induction d with
  | nil => simp [dataValue, noNilRef, noNilRefFields]
  | cons e rest ih =>
    have h1 : noNilRefOpt e.2 = true := h e (by simp)
    have h2 := ih (fun e2 he2 => h e2 (by simp [he2]))
    simp only [dataValue, noNilRef, List.foldr_cons, noNilRefFields,
      noNilRefOpt, Bool.and_eq_true] at h2 ⊢
    exact ⟨h1, h2⟩

/-- C1.  The claim says validation fails with `InvalidIdentifier` on every
string whose first character is outside \x7bletter, underscore, dollar-sign\x7d.
The code violates it: the `a-zA-z` ranges of `JSVariableRegex` also accept
the ASCII symbols between `Z` and `a`, so `NewMap` accepts the name `^`
(and stores it), although `^` is no identifier under the spec's grammar. -/
theorem newMap_accepts_caret :
    NewMap "^" none = Except.ok { data := some [], globalName := "^" } ∧
    specIsIdentifier "^" = false :=
  ⟨rfl, rfl⟩

/-- C2 counterexample.  The claim speaks of "the 43 words"; the
reserved-word alternation of `JSReservedRegex` lists 42 words. -/
theorem reservedWords_count :
    JSReservedWords.length = 42 ∧ JSReservedWords.length ≠ 43 :=
  ⟨rfl, by decide⟩

/-- C2 (amended to 42 words).  For every name accepted by the variable
regex, `SetGlobalName` fails with the reserved-keyword error exactly when
the name is, compared case-sensitively, one of the 42 reserved words; in
particular case-variants such as `Var` are not rejected as reserved. -/
theorem setGlobalName_reserved_iff (l : Map) (name : String)
    (h : JSVariableRegex name = true) :
    l.SetGlobalName name = Except.error GoError.reservedKeyword ↔
      name ∈ JSReservedWords := by
  simp only [Map.SetGlobalName, h, Bool.not_true, Bool.false_eq_true,
    if_false, JSReservedRegex]
  by_cases hr : name ∈ JSReservedWords
  · have hc : JSReservedWords.contains name = true := by
      simpa [List.contains, List.elem_iff] using hr
    simp [hc, hr]
  · have hc : JSReservedWords.contains name = false := by
      simp [List.contains, List.elem_iff]
      exact hr
    simp [hc, hr]

/-- Witness for C2: at `name = "var"`, which matches the variable regex,
`SetGlobalName` rejects the name as reserved. -/
theorem setGlobalName_reserved_iff_witness :
    JSVariableRegex "var" = true ∧
    ((Map.SetGlobalName { data := some [], globalName := "" } "var"
        = Except.error GoError.reservedKeyword) ↔ "var" ∈ JSReservedWords) :=
  ⟨by decide,
   setGlobalName_reserved_iff { data := some [], globalName := "" } "var"
     (by decide)⟩

/-- C3.  The claim states the invariant that a stored `globalName` is
always a legal identifier and that `JS` never emits an assignment for a
name that is no identifier.  The code violates it through the `a-zA-z`
regex ranges: `NewMap` accepts `[`, and `JS` then emits an assignment
head for it, although `[` is no identifier under the spec's grammar. -/
theorem invalid_globalName_reaches_js :
    NewMap "[" none = Except.ok { data := some [], globalName := "[" } ∧
    specIsIdentifier "[" = false ∧
    Map.JS { data := some [], globalName := "[" } = some "[ = \x7b\n\n\x7d;" :=
  ⟨rfl, rfl, rfl⟩

/-- C4.  The map built by `NewMap` with name `intCase` and the single
entry `"int" ↦ 1954` renders, byte for byte, to
`intCase = \x7b\n"int": [\n1954,\n],\n\n\x7d;`. -/
theorem js_intCase_exact :
    NewMap "intCase" (some [("int", OptValue.val (Value.vInt 1954))])
      = Except.ok { data := some [("int", OptValue.val (Value.vInt 1954))],
                    globalName := "intCase" } ∧
    Map.JS { data := some [("int", OptValue.val (Value.vInt 1954))],
             globalName := "intCase" }
      = some "intCase = \x7b\n\"int\": [\n1954,\n],\n\n\x7d;" :=
  ⟨rfl, rfl⟩

/-- C5.  Every (key, value) entry of a map node is emitted exactly as the
spec's Mapping rule prescribes: brace wrapper for a map value or an
interface value unwrapping to a map, bracket wrapper for an interface
value unwrapping to anything else, and no wrapper (key, colon, rendered
value, newline) otherwise. -/
theorem reflectEntries_cons_shape (k : String) (v : Value) (rest : Fields)
    (s r : String) (hs : ReflectTarget v = some s)
    (hr : reflectEntries rest = some r) :
    reflectEntries (.cons k v rest) = some (specMappingEntry k v s r) := by
  cases v with
  | vInterface ov =>
    cases ov with
    | nil => simp [ReflectTarget] at hs
    | val w =>
      have hw : ReflectTarget w = some s := by simpa [ReflectTarget] using hs
      by_cases hk : kindIsMap w <;>
        simp [reflectEntries, specMappingEntry, hw, hr, hk]
  | vMap fs =>
    have hm : reflectEntries fs = some s := by simpa [ReflectTarget] using hs
    simp [reflectEntries, specMappingEntry, hm, hr]
  | vStruct fs =>
    have hm : reflectFields fs = some s := by simpa [ReflectTarget] using hs
    simp [reflectEntries, specMappingEntry, ReflectTarget, hm, hr]
  | vSlice es => simp [reflectEntries, specMappingEntry, hs, hr]
  | vInt n => simp [reflectEntries, specMappingEntry, hs, hr]
  | vString s1 => simp [reflectEntries, specMappingEntry, hs, hr]
  | vBool b => simp [reflectEntries, specMappingEntry, hs, hr]
  | vFloat x => simp [reflectEntries, specMappingEntry, hs, hr]
  | vOther => simp [reflectEntries, specMappingEntry, hs, hr]

/-- Witness for C5: a single-entry map node whose value is an interface
wrapping the integer 7 renders with the bracket wrapper. -/
theorem reflectEntries_cons_shape_witness :
    ReflectTarget (Value.vInterface (OptValue.val (Value.vInt 7)))
        = some "7," ∧
    reflectEntries Fields.nil = some "" ∧
    reflectEntries (Fields.cons "n"
        (Value.vInterface (OptValue.val (Value.vInt 7))) Fields.nil)
      = some (specMappingEntry "n"
          (Value.vInterface (OptValue.val (Value.vInt 7))) "7," "") :=
  ⟨rfl, rfl,
   reflectEntries_cons_shape "n"
     (Value.vInterface (OptValue.val (Value.vInt 7))) Fields.nil "7," ""
     rfl rfl⟩

/-- C6.  Every struct field is emitted with an unconditional brace wrapper
around its rendered value, whatever the field value's kind — the theorem
holds for every `v`, unlike the conditional Mapping rule of C5. -/
theorem reflectFields_cons_shape (name : String) (v : Value) (rest : Fields)
    (s r : String) (hs : ReflectTarget v = some s)
    (hr : reflectFields rest = some r) :
    reflectFields (.cons name v rest)
      = some ("\"" ++ name ++ "\": \x7b\n" ++ s ++ "\x7d,\n" ++ r) := by
  simp [reflectFields, hs, hr]

/-- Witness for C6: a struct field holding a bare string scalar is still
brace-wrapped. -/
theorem reflectFields_cons_shape_witness :
    ReflectTarget (Value.vString "x") = some "\"x\"," ∧
    reflectFields Fields.nil = some "" ∧
    reflectFields (Fields.cons "F" (Value.vString "x") Fields.nil)
      = some ("\"" ++ "F" ++ "\": \x7b\n" ++ "\"x\"," ++ "\x7d,\n" ++ "") :=
  ⟨rfl, rfl,
   reflectFields_cons_shape "F" (Value.vString "x") Fields.nil "\"x\"," ""
     rfl rfl⟩

/-- C7.  A string scalar is emitted as a double quote, the characters of
the string unchanged, a double quote, and a comma — character for
character, with no escaping of anything embedded in the string. -/
theorem reflectTarget_string_verbatim (s : String) :
    ReflectTarget (.vString s) = some ("\"" ++ s ++ "\",") ∧
    ("\"" ++ s ++ "\",").data = '"' :: (s.data ++ ['"', ',']) := by
  refine ⟨rfl, ?_⟩
  simp [String.data_append]

/-- C8 counterexample.  On the data map with the single entry
`"a" ↦ nil`, the traversal hits `reflect.Value.Type` on the zero value
produced by `Elem()` of the nil interface and panics, so `JS` produces no
text (the claim says it always returns a text result, including for nil
values nested inside the data). -/
theorem js_panics_on_nil_entry :
    Map.JS { data := some [("a", OptValue.nil)], globalName := "x" }
      = none :=
  rfl

/-- C8 (amended to nil-free inputs).  On every data map none of whose
entries contains a nil interface value, the traversal terminates normally
and `JS` returns a text result; a node of an unhandled kind emits no text
and the traversal continues. -/
theorem js_total_without_nil_refs (l : Map) (d : List (String × OptValue))
    (hd : l.data = some d) (hnn : ∀ e ∈ d, noNilRefOpt e.2 = true) :
    (Map.JS l).isSome = true ∧ ReflectTarget Value.vOther = some "" := by
  refine ⟨?_, rfl⟩
  obtain ⟨body, hb⟩ := Option.isSome_iff_exists.mp
    (reflect_isSome (dataValue d) (noNilRef_dataValue d hnn))
  simp [Map.JS, hd, hb]

/-- Witness for C8: a nil-free single-entry map renders to some text. -/
theorem js_total_without_nil_refs_witness :
    (({ data := some [("a", OptValue.val (Value.vInt 3))],
        globalName := "x" } : Map).data
      = some [("a", OptValue.val (Value.vInt 3))]) ∧
    (∀ e ∈ [("a", OptValue.val (Value.vInt 3))], noNilRefOpt e.2 = true) ∧
    ((Map.JS { data := some [("a", OptValue.val (Value.vInt 3))],
               globalName := "x" }).isSome = true ∧
      ReflectTarget Value.vOther = some "") :=
  ⟨rfl, by decide,
   js_total_without_nil_refs
     { data := some [("a", OptValue.val (Value.vInt 3))], globalName := "x" }
     [("a", OptValue.val (Value.vInt 3))] rfl (by decide)⟩

/-- C9.  On a map with a non-nil data map: `Add` fails with the
invalid-key error on an empty key and with the invalid-data error on a
nil value, `Delete` fails with the invalid-key error on an empty key, and
all three error cases leave the map unchanged; a successful `Add` makes
the entry present under the key, a successful `Delete` makes the key
absent, and both return no error. -/
theorem add_delete_guard_semantics (l : Map) (d : List (String × OptValue))
    (hd : l.data = some d) (key : String) (hk : key ≠ "") (v : Value) :
    Map.Add l "" (OptValue.val v) = (some GoError.invalidKey, l) ∧
    Map.Add l key OptValue.nil = (some GoError.invalidData, l) ∧
    Map.Delete l "" = (some GoError.invalidKey, l) ∧
    Map.Add l key (OptValue.val v)
      = (none, { l with data := some (setEntry d key (OptValue.val v)) }) ∧
    getEntry (setEntry d key (OptValue.val v)) key
      = some (OptValue.val v) ∧
    Map.Delete l key = (none, { l with data := some (delEntry d key) }) ∧
    getEntry (delEntry d key) key = none := by
  refine ⟨?_, ?_, ?_, ?_, getEntry_setEntry d key (OptValue.val v), ?_,
    getEntry_delEntry d key⟩
  · simp [Map.Add, hd]
  · simp [Map.Add, hd, hk]
  · simp [Map.Delete, hd]
  · simp [Map.Add, hd, hk, getEntry_setEntry]
  · simp [Map.Delete, hd, hk, getEntry_delEntry]

/-- Witness for C9 at a concrete one-entry map, key `k2`, value `"s"`. -/
theorem add_delete_guard_semantics_witness :
    (({ data := some [("k", OptValue.val (Value.vInt 1))],
        globalName := "x" } : Map).data
      = some [("k", OptValue.val (Value.vInt 1))]) ∧ "k2" ≠ "" ∧
    (Map.Add { data := some [("k", OptValue.val (Value.vInt 1))],
               globalName := "x" } "" (OptValue.val (Value.vString "s"))
      = (some GoError.invalidKey,
         { data := some [("k", OptValue.val (Value.vInt 1))],
           globalName := "x" }) ∧
     Map.Add { data := some [("k", OptValue.val (Value.vInt 1))],
               globalName := "x" } "k2" OptValue.nil
      = (some GoError.invalidData,
         { data := some [("k", OptValue.val (Value.vInt 1))],
           globalName := "x" }) ∧
     Map.Delete { data := some [("k", OptValue.val (Value.vInt 1))],
                  globalName := "x" } ""
      = (some GoError.invalidKey,
         { data := some [("k", OptValue.val (Value.vInt 1))],
           globalName := "x" }) ∧
     Map.Add { data := some [("k", OptValue.val (Value.vInt 1))],
               globalName := "x" } "k2" (OptValue.val (Value.vString "s"))
      = (none, { data := some (setEntry [("k", OptValue.val (Value.vInt 1))]
                   "k2" (OptValue.val (Value.vString "s"))),
                 globalName := "x" }) ∧
     getEntry (setEntry [("k", OptValue.val (Value.vInt 1))] "k2"
         (OptValue.val (Value.vString "s"))) "k2"
      = some (OptValue.val (Value.vString "s")) ∧
     Map.Delete { data := some [("k", OptValue.val (Value.vInt 1))],
                  globalName := "x" } "k2"
      = (none, { data := some (delEntry [("k", OptValue.val (Value.vInt 1))]
                   "k2"), globalName := "x" }) ∧
     getEntry (delEntry [("k", OptValue.val (Value.vInt 1))] "k2") "k2"
      = none) :=
  ⟨rfl, by decide,
   add_delete_guard_semantics
     { data := some [("k", OptValue.val (Value.vInt 1))], globalName := "x" }
     [("k", OptValue.val (Value.vInt 1))] rfl "k2" (by decide)
     (Value.vString "s")⟩

/-- C10.  A successful `NewMap` always yields a non-nil data map, and an
empty one when the `data` argument was nil; on any map whose data map is
non-nil, `Add` and `Delete` never return the nil-map error and preserve
non-nilness, and a successful `SetGlobalName` leaves the data map
untouched. -/
theorem newMap_data_nonnil (name : String)
    (data : Option (List (String × OptValue))) (m : Map)
    (h : NewMap name data = Except.ok m) :
    (data = none → m.GetData = some []) ∧ m.GetData.isSome = true ∧
    (∀ (l : Map), l.GetData.isSome = true →
      ∀ (key : String) (ov : OptValue),
        (Map.Add l key ov).1 ≠ some GoError.nilMap ∧
        ((Map.Add l key ov).2.GetData).isSome = true ∧
        (Map.Delete l key).1 ≠ some GoError.nilMap ∧
        ((Map.Delete l key).2.GetData).isSome = true) ∧
    (∀ (n1 : String) (m1 : Map),
        m.SetGlobalName n1 = Except.ok m1 → m1.GetData = m.GetData) := by
  have hm : m.data = some (data.getD []) := by
    unfold NewMap Map.SetGlobalName at h
    by_cases h1 : JSVariableRegex name
    · by_cases h2 : JSReservedRegex name
      · simp [h1, h2] at h
      · simp only [h1, h2, Bool.not_true, Bool.false_eq_true, if_false] at h
        cases h
        rfl
    · simp [h1] at h
  refine ⟨?_, ?_, ?_, ?_⟩
  · intro hnone
    subst hnone
    simpa [Map.GetData] using hm
  · simp [Map.GetData, hm]
  · intro l hl key ov
    obtain ⟨dl, hdl⟩ := Option.isSome_iff_exists.mp hl
    have hdl2 : l.data = some dl := hdl
    by_cases hkey : key = ""
    · subst hkey
      cases ov <;>
        simp [Map.Add, Map.Delete, Map.GetData, hdl2]
    · cases ov <;>
        simp [Map.Add, Map.Delete, Map.GetData, hdl2, hkey,
          getEntry_setEntry, getEntry_delEntry]
  · intro n1 m1 hset
    unfold Map.SetGlobalName at hset
    by_cases a1 : JSVariableRegex n1
    · by_cases a2 : JSReservedRegex n1
      · simp [a1, a2] at hset
      · simp only [a1, a2, Bool.not_true, Bool.false_eq_true,
          if_false] at hset
        cases hset
        rfl
    · simp [a1] at hset

/-- Witness for C10 at `NewMap "x" none`. -/
theorem newMap_data_nonnil_witness :
    NewMap "x" none = Except.ok { data := some [], globalName := "x" } ∧
    ((none = (none : Option (List (String × OptValue))) →
        Map.GetData { data := some [], globalName := "x" } = some []) ∧
      (Map.GetData { data := some [], globalName := "x" }).isSome = true ∧
      (∀ (l : Map), l.GetData.isSome = true →
        ∀ (key : String) (ov : OptValue),
          (Map.Add l key ov).1 ≠ some GoError.nilMap ∧
          ((Map.Add l key ov).2.GetData).isSome = true ∧
          (Map.Delete l key).1 ≠ some GoError.nilMap ∧
          ((Map.Delete l key).2.GetData).isSome = true) ∧
      (∀ (n1 : String) (m1 : Map),
          Map.SetGlobalName { data := some [], globalName := "x" } n1
              = Except.ok m1 →
            m1.GetData
              = Map.GetData { data := some [], globalName := "x" })) :=
  ⟨rfl,
   newMap_data_nonnil "x" none { data := some [], globalName := "x" } rfl⟩

end Localize
